import Mathlib

set_option linter.unusedVariables false

/-!
Shallow embedding of the `chess_ai` engine core, translated from
`src/chess_ai/state_manager.py`, `src/chess_ai/move_generator.py`,
`src/chess_ai/evaluation.py` and `src/chess_ai/ai_engine.py`.

Python dictionaries (the board) are modelled as insertion-ordered
association lists, mirroring CPython dict semantics: lookup returns the
entry for a key, deleting removes that entry, assigning to an existing key
updates the value in place, and assigning a fresh key appends at the end.
Coordinates are `Int` pairs, as Python ints (generation probes off-board
coordinates before bounds checks, so they may be negative).
-/

namespace ChessAI

/-- From `PieceType` enum from `state_manager.py`. -/
inductive PieceType where
  | pawn | knight | bishop | rook | queen | king
deriving DecidableEq, Repr

/-- From `PieceColor` enum from `state_manager.py`. -/
inductive PieceColor where
  | white | black
deriving DecidableEq, Repr

/-- From `ChessPiece` from `state_manager.py`: a piece type together with a color. -/
structure ChessPiece where
  piece_type : PieceType
  color : PieceColor
deriving DecidableEq, Repr

/-- A board square, a Python `(x, y)` int pair ((0,0) = a1, (7,7) = h8). -/
abbrev Square := Int × Int

/-- The board: Python dict mapping squares to pieces, as an insertion-ordered
association list. -/
abbrev Board := List (Square × ChessPiece)

/-- A move `((from_x, from_y), (to_x, to_y))` as the Python tuples. -/
abbrev Move := Square × Square

/-- Python `dict.get(k)`: the value stored at the first entry for `k`. -/
def dictLookup (b : Board) (k : Square) : Option ChessPiece :=
  match b with
  | [] => none
  | (k', v) :: rest => if k' = k then some v else dictLookup rest k

/-- Python `dict.pop(k)`, the removal part: drop the entry for `k`. -/
def dictErase (b : Board) (k : Square) : Board :=
  match b with
  | [] => []
  | (k', v) :: rest => if k' = k then rest else (k', v) :: dictErase rest k

/-- Python `dict[k] = v`: update in place when `k` is present, else append. -/
def dictSet (b : Board) (k : Square) (v : ChessPiece) : Board :=
  match b with
  | [] => [(k, v)]
  | (k', v') :: rest =>
      if k' = k then (k, v) :: rest else (k', v') :: dictSet rest k v

/-- Per-color castling rights `(queenside, kingside)` from
`ChessState.castling_rights`. -/
structure CastlingRights where
  white : Bool × Bool
  black : Bool × Bool
deriving DecidableEq, Repr

/-- From `ChessState` from `state_manager.py`. -/
structure ChessState where
  board : Board
  active_color : PieceColor
  castling_rights : CastlingRights
  en_passant_target : Option Square
  halfmove_clock : Int
  fullmove_number : Int
  move_history : List String
deriving DecidableEq, Repr

/-- The back-rank piece order of `ChessState._setup_initial_position`. -/
def back_rank : List PieceType :=
  [PieceType.rook, PieceType.knight, PieceType.bishop, PieceType.queen,
   PieceType.king, PieceType.bishop, PieceType.knight, PieceType.rook]

/-- From `ChessState._setup_initial_position`: pawns are inserted first
(interleaving white `(x,1)` and black `(x,6)` per file), then the back ranks
(white `(x,0)` and black `(x,7)` per file).  Every key is fresh, so each dict
assignment appends. -/
def setup_initial_position : Board :=
  ((List.range 8).flatMap (fun x =>
    [(((x : Int), 1), ChessPiece.mk PieceType.pawn PieceColor.white),
     (((x : Int), 6), ChessPiece.mk PieceType.pawn PieceColor.black)]))
  ++ ((List.zip (List.range 8) back_rank).flatMap (fun e =>
    [(((e.1 : Int), 0), ChessPiece.mk e.2 PieceColor.white),
     (((e.1 : Int), 7), ChessPiece.mk e.2 PieceColor.black)]))

/-- From `ChessState.__init__`: the starting position with White to move, full
castling rights, no en-passant target and empty history. -/
def ChessState.init : ChessState where
  board := setup_initial_position
  active_color := PieceColor.white
  castling_rights := { white := (true, true), black := (true, true) }
  en_passant_target := none
  halfmove_clock := 0
  fullmove_number := 1
  move_history := []

/-- From `ChessState.get_piece_at`. -/
def get_piece_at (s : ChessState) (x y : Int) : Option ChessPiece :=
  dictLookup s.board (x, y)

/-- From `ChessState.is_valid_move`: the source is a stub that returns `True`
unconditionally. -/
def is_valid_move (s : ChessState) (from_x from_y to_x to_y : Int) : Bool :=
  true

/-- From `ChessState.is_check`: the source is a stub that returns `False`. -/
def is_check (s : ChessState) : Bool := false

/-- From `ChessState.is_checkmate`: the source is a stub that returns `False`. -/
def is_checkmate (s : ChessState) : Bool := false

/-- From `ChessState.is_stalemate`: the source is a stub that returns `False`. -/
def is_stalemate (s : ChessState) : Bool := false

/-- From `ChessState.get_fen`: the source is a placeholder returning the fixed
starting-position FEN string for every state. -/
def get_fen (s : ChessState) : String :=
  "rnbqkbnr/pppppppp/8/8/8/8/PPPPPPPP/RNBQKBNR w KQkq - 0 1"

/-- From `ChessState.set_from_fen`: the source body is `pass`, so the state is
left untouched and the FEN text is ignored. -/
def set_from_fen (s : ChessState) (fen : String) : ChessState := s

/-- The move text appended to `move_history` by `make_move`:
`f"{chr(97 + from_x)}{from_y + 1}{chr(97 + to_x)}{to_y + 1}"`. -/
def move_text (from_x from_y to_x to_y : Int) : String :=
  String.mk [Char.ofNat (97 + from_x).toNat] ++ toString (from_y + 1) ++
  String.mk [Char.ofNat (97 + to_x).toNat] ++ toString (to_y + 1)

/-- From `ChessState.make_move`.  Returns `none` for the `KeyError` Python raises
when `board.pop` is applied to an empty origin square; otherwise
`some (returnValue, newState)`.  The `promotion` parameter is accepted and
ignored, exactly as in the source. -/
def make_move (s : ChessState) (from_x from_y to_x to_y : Int)
    (promotion : Option PieceType) : Option (Bool × ChessState) :=
  if is_valid_move s from_x from_y to_x to_y = false then some (false, s)
  else
    match dictLookup s.board (from_x, from_y) with
    | none => none
    | some piece =>
      let board1 := dictSet (dictErase s.board (from_x, from_y)) (to_x, to_y) piece
      let color1 := if s.active_color = PieceColor.white
        then PieceColor.black else PieceColor.white
      let fullmove1 := if color1 = PieceColor.white
        then s.fullmove_number + 1 else s.fullmove_number
      some (true,
        { s with
          board := board1
          active_color := color1
          fullmove_number := fullmove1
          move_history :=
            s.move_history ++ [move_text from_x from_y to_x to_y] })

/-!  `move_generator.py` (`MoveGenerator`).  The generator's only use of the
state inside the attack scan is `get_piece_at`, i.e. board lookups, so the
attack helpers below take the board directly. -/

/-- From `MoveGenerator.directions`: direction vectors per piece type. -/
def directions : PieceType → List (Int × Int)
  | PieceType.pawn => []
  | PieceType.knight =>
      [(1, 2), (2, 1), (2, -1), (1, -2), (-1, -2), (-2, -1), (-2, 1), (-1, 2)]
  | PieceType.bishop => [(1, 1), (1, -1), (-1, -1), (-1, 1)]
  | PieceType.rook => [(1, 0), (0, 1), (-1, 0), (0, -1)]
  | PieceType.queen =>
      [(1, 0), (0, 1), (-1, 0), (0, -1), (1, 1), (1, -1), (-1, -1), (-1, 1)]
  | PieceType.king =>
      [(1, 0), (0, 1), (-1, 0), (0, -1), (1, 1), (1, -1), (-1, -1), (-1, 1)]

/-- From `MoveGenerator.max_distance`. -/
def max_distance : PieceType → Nat
  | PieceType.pawn => 1
  | PieceType.knight => 1
  | PieceType.bishop => 7
  | PieceType.rook => 7
  | PieceType.queen => 7
  | PieceType.king => 1

/-- The on-board test `0 <= x < 8 and 0 <= y < 8` used throughout. -/
def on_board (x y : Int) : Bool :=
  decide (0 ≤ x ∧ x < 8 ∧ 0 ≤ y ∧ y < 8)

/-- The opposite color (`PieceColor.BLACK if color == WHITE else WHITE`). -/
def opponent_of : PieceColor → PieceColor
  | PieceColor.white => PieceColor.black
  | PieceColor.black => PieceColor.white

/-- One offset probe of `_is_square_attacked`: the square holds an opponent
piece of the stated type. -/
def offset_attack (b : Board) (opponent : PieceColor) (t : PieceType)
    (ax ay : Int) : Bool :=
  on_board ax ay &&
    match dictLookup b (ax, ay) with
    | some p => decide (p.color = opponent ∧ p.piece_type = t)
    | none => false

/-- One sliding ray of `_is_square_attacked`: walk the distances outward,
stopping at the board edge or the first occupied square; attacked only when
that square holds an opponent piece of one of the two stated types. -/
def ray_attacked (b : Board) (opponent : PieceColor) (t1 t2 : PieceType)
    (x y dx dy : Int) : List Nat → Bool
  | [] => false
  | dist :: rest =>
    let ax := x + dx * (dist : Int)
    let ay := y + dy * (dist : Int)
    if on_board ax ay = false then false
    else
      match dictLookup b (ax, ay) with
      | none => ray_attacked b opponent t1 t2 x y dx dy rest
      | some p => decide (p.color = opponent ∧ (p.piece_type = t1 ∨ p.piece_type = t2))

/-- From `MoveGenerator._is_square_attacked` (the state is used only for board
lookups, so the board is passed directly). -/
def is_square_attacked (b : Board) (x y : Int) (color : PieceColor) : Bool :=
  let opponent := opponent_of color
  let pawn_direction : Int := if color = PieceColor.white then -1 else 1
  ([(-1 : Int), 1].any (fun dx =>
      offset_attack b opponent PieceType.pawn (x + dx) (y + pawn_direction)))
  || ((directions PieceType.knight).any (fun d =>
      offset_attack b opponent PieceType.knight (x + d.1) (y + d.2)))
  || ((directions PieceType.king).any (fun d =>
      offset_attack b opponent PieceType.king (x + d.1) (y + d.2)))
  || ((directions PieceType.bishop).any (fun d =>
      ray_attacked b opponent PieceType.bishop PieceType.queen x y d.1 d.2
        (List.range' 1 7)))
  || ((directions PieceType.rook).any (fun d =>
      ray_attacked b opponent PieceType.rook PieceType.queen x y d.1 d.2
        (List.range' 1 7)))

/-- The king search of `_would_be_in_check_after_move`: first board entry
holding a king of the given color. -/
def find_king (b : Board) (color : PieceColor) : Option Square :=
  (b.find? (fun e =>
    decide (e.2.piece_type = PieceType.king ∧ e.2.color = color))).map (·.1)

/-- From `MoveGenerator._copy_state`: a fresh `ChessState()` whose board, active
color, en-passant target and castling rights are copied from the source
state; clocks and history keep the constructor's fresh values. -/
def copy_state (s : ChessState) : ChessState where
  board := s.board
  active_color := s.active_color
  castling_rights := s.castling_rights
  en_passant_target := s.en_passant_target
  halfmove_clock := 0
  fullmove_number := 1
  move_history := []

/-- From `MoveGenerator._would_be_in_check_after_move`: apply the move to a copy
of the state (plain pop/assign on the board) and test whether the mover's
king square is attacked.  `board.pop` on an empty origin would raise
`KeyError` in Python; that case (unreachable for generated pseudo-moves,
whose origins are occupied) is modelled as `false`. -/
def would_be_in_check_after_move (s : ChessState) (m : Move) : Bool :=
  let new_state := copy_state s
  match dictLookup new_state.board m.1 with
  | none => false
  | some piece =>
    let b2 := dictSet (dictErase new_state.board m.1) m.2 piece
    match find_king b2 s.active_color with
    | none => false
    | some kp => is_square_attacked b2 kp.1 kp.2 s.active_color

/-- From `MoveGenerator._generate_pawn_moves`. -/
def generate_pawn_moves (s : ChessState) (x y : Int) (piece : ChessPiece) :
    List Move :=
  let direction : Int := if piece.color = PieceColor.white then 1 else -1
  let forward :=
    let new_y := y + direction
    if decide (0 ≤ new_y ∧ new_y < 8) && (get_piece_at s x new_y).isNone then
      ((x, y), (x, new_y)) ::
        (if decide ((y = 1 ∧ piece.color = PieceColor.white) ∨
                    (y = 6 ∧ piece.color = PieceColor.black)) then
          let ny2 := y + 2 * direction
          if decide (0 ≤ ny2 ∧ ny2 < 8) && (get_piece_at s x ny2).isNone then
            [((x, y), (x, ny2))]
          else []
        else [])
    else []
  let captures := [(-1 : Int), 1].flatMap (fun dx =>
    let new_x := x + dx
    let new_y := y + direction
    if on_board new_x new_y then
      match get_piece_at s new_x new_y with
      | some target =>
        if target.color ≠ piece.color then [((x, y), (new_x, new_y))]
        else if s.en_passant_target = some (new_x, new_y) then
          [((x, y), (new_x, new_y))]
        else []
      | none =>
        if s.en_passant_target = some (new_x, new_y) then
          [((x, y), (new_x, new_y))]
        else []
    else [])
  forward ++ captures

/-- From `MoveGenerator._can_castle_kingside`: the two squares between king and
rook are empty and the king's square plus the two squares toward the rook
are not attacked. -/
def can_castle_kingside (s : ChessState) (x y : Int) (color : PieceColor) :
    Bool :=
  ((List.range' 1 2).all (fun i => (get_piece_at s (x + (i : Int)) y).isNone))
  && ((List.range' 0 3).all (fun i =>
      is_square_attacked s.board (x + (i : Int)) y color = false))

/-- From `MoveGenerator._can_castle_queenside`. -/
def can_castle_queenside (s : ChessState) (x y : Int) (color : PieceColor) :
    Bool :=
  ((List.range' 1 3).all (fun i => (get_piece_at s (x - (i : Int)) y).isNone))
  && ((List.range' 0 3).all (fun i =>
      is_square_attacked s.board (x - (i : Int)) y color = false))

/-- From `MoveGenerator._generate_king_moves`: the eight adjacent squares, plus
castling when `state.is_check()` is false and the relevant right is set. -/
def generate_king_moves (s : ChessState) (x y : Int) (piece : ChessPiece) :
    List Move :=
  let regular := (directions PieceType.king).flatMap (fun d =>
    let nx := x + d.1
    let ny := y + d.2
    if on_board nx ny = false then []
    else
      match get_piece_at s nx ny with
      | none => [((x, y), (nx, ny))]
      | some target =>
        if target.color ≠ piece.color then [((x, y), (nx, ny))] else [])
  let castling :=
    if is_check s = false then
      let rights := if piece.color = PieceColor.white
        then s.castling_rights.white else s.castling_rights.black
      (if rights.2 && can_castle_kingside s x y piece.color then
        [((x, y), (x + 2, y))] else [])
      ++ (if rights.1 && can_castle_queenside s x y piece.color then
        [((x, y), (x - 2, y))] else [])
    else []
  regular ++ castling

/-- One direction of the generic sliding-piece loop in
`_generate_piece_moves`: walk outward, stopping at the board edge, including
an enemy square as a capture, and stopping without inclusion at a friendly
square. -/
def slide_dir (s : ChessState) (piece : ChessPiece) (x y dx dy : Int) :
    List Nat → List Move
  | [] => []
  | dist :: rest =>
    let nx := x + dx * (dist : Int)
    let ny := y + dy * (dist : Int)
    if on_board nx ny = false then []
    else
      match get_piece_at s nx ny with
      | none => ((x, y), (nx, ny)) :: slide_dir s piece x y dx dy rest
      | some target =>
        if target.color ≠ piece.color then [((x, y), (nx, ny))] else []

/-- From `MoveGenerator._generate_piece_moves`: pseudo-legal moves per piece
type, then the legality filter discarding moves after which the mover's own
king would be in check. -/
def generate_piece_moves (s : ChessState) (x y : Int) (piece : ChessPiece) :
    List Move :=
  let moves :=
    if piece.piece_type = PieceType.pawn then generate_pawn_moves s x y piece
    else if piece.piece_type = PieceType.king then
      generate_king_moves s x y piece
    else
      (directions piece.piece_type).flatMap (fun d =>
        slide_dir s piece x y d.1 d.2
          (List.range' 1 (max_distance piece.piece_type)))
  moves.filter (fun m => would_be_in_check_after_move s m = false)

/-- From `MoveGenerator.generate_moves`: moves of every piece of the active
color, in board insertion order. -/
def generate_moves (s : ChessState) : List Move :=
  s.board.flatMap (fun e =>
    if e.2.color = s.active_color then generate_piece_moves s e.1.1 e.1.2 e.2
    else [])

/-!  `evaluation.py` (`PositionEvaluator`).  Python floats are modelled as
exact rationals; every quantity the claims touch is integer-valued or an
exact fraction of integers. -/

/-- From `PositionEvaluator.piece_values` (centipawns; the king's 20000 is a
nominal value). -/
def piece_values : PieceType → Int
  | PieceType.pawn => 100
  | PieceType.knight => 320
  | PieceType.bishop => 330
  | PieceType.rook => 500
  | PieceType.queen => 900
  | PieceType.king => 20000

/-- The pawn piece-square table. -/
def pawn_table : List (List Int) :=
  [[  0,   0,   0,   0,   0,   0,   0,   0],
   [ 50,  50,  50,  50,  50,  50,  50,  50],
   [ 10,  10,  20,  30,  30,  20,  10,  10],
   [  5,   5,  10,  25,  25,  10,   5,   5],
   [  0,   0,   0,  20,  20,   0,   0,   0],
   [  5,  -5, -10,   0,   0, -10,  -5,   5],
   [  5,  10,  10, -20, -20,  10,  10,   5],
   [  0,   0,   0,   0,   0,   0,   0,   0]]

/-- The knight piece-square table. -/
def knight_table : List (List Int) :=
  [[-50, -40, -30, -30, -30, -30, -40, -50],
   [-40, -20,   0,   0,   0,   0, -20, -40],
   [-30,   0,  10,  15,  15,  10,   0, -30],
   [-30,   5,  15,  20,  20,  15,   5, -30],
   [-30,   0,  15,  20,  20,  15,   0, -30],
   [-30,   5,  10,  15,  15,  10,   5, -30],
   [-40, -20,   0,   5,   5,   0, -20, -40],
   [-50, -40, -30, -30, -30, -30, -40, -50]]

/-- The bishop piece-square table. -/
def bishop_table : List (List Int) :=
  [[-20, -10, -10, -10, -10, -10, -10, -20],
   [-10,   0,   0,   0,   0,   0,   0, -10],
   [-10,   0,  10,  10,  10,  10,   0, -10],
   [-10,   5,   5,  10,  10,   5,   5, -10],
   [-10,   0,   5,  10,  10,   5,   0, -10],
   [-10,   5,   5,   5,   5,   5,   5, -10],
   [-10,   0,   0,   0,   0,   0,   0, -10],
   [-20, -10, -10, -10, -10, -10, -10, -20]]

/-- The rook piece-square table. -/
def rook_table : List (List Int) :=
  [[  0,   0,   0,   0,   0,   0,   0,   0],
   [  5,  10,  10,  10,  10,  10,  10,   5],
   [ -5,   0,   0,   0,   0,   0,   0,  -5],
   [ -5,   0,   0,   0,   0,   0,   0,  -5],
   [ -5,   0,   0,   0,   0,   0,   0,  -5],
   [ -5,   0,   0,   0,   0,   0,   0,  -5],
   [ -5,   0,   0,   0,   0,   0,   0,  -5],
   [  0,   0,   0,   5,   5,   0,   0,   0]]

/-- The queen piece-square table. -/
def queen_table : List (List Int) :=
  [[-20, -10, -10,  -5,  -5, -10, -10, -20],
   [-10,   0,   0,   0,   0,   0,   0, -10],
   [-10,   0,   5,   5,   5,   5,   0, -10],
   [ -5,   0,   5,   5,   5,   5,   0,  -5],
   [  0,   0,   5,   5,   5,   5,   0,  -5],
   [-10,   5,   5,   5,   5,   5,   0, -10],
   [-10,   0,   5,   0,   0,   0,   0, -10],
   [-20, -10, -10,  -5,  -5, -10, -10, -20]]

/-- The opening/middlegame king table. -/
def king_table_opening : List (List Int) :=
  [[-30, -40, -40, -50, -50, -40, -40, -30],
   [-30, -40, -40, -50, -50, -40, -40, -30],
   [-30, -40, -40, -50, -50, -40, -40, -30],
   [-30, -40, -40, -50, -50, -40, -40, -30],
   [-20, -30, -30, -40, -40, -30, -30, -20],
   [-10, -20, -20, -20, -20, -20, -20, -10],
   [ 20,  20,   0,   0,   0,   0,  20,  20],
   [ 20,  30,  10,   0,   0,  10,  30,  20]]

/-- The endgame king table (declared both in `_init_piece_square_tables` and
again literally inside `evaluate_piece_position`). -/
def king_table_endgame : List (List Int) :=
  [[-50, -40, -30, -20, -20, -30, -40, -50],
   [-30, -20, -10,   0,   0, -10, -20, -30],
   [-30, -10,  20,  30,  30,  20, -10, -30],
   [-30, -10,  30,  40,  40,  30, -10, -30],
   [-30, -10,  30,  40,  40,  30, -10, -30],
   [-30, -10,  20,  30,  30,  20, -10, -30],
   [-30, -30,   0,   0,   0,   0, -30, -30],
   [-50, -30, -30, -30, -30, -30, -30, -50]]

/-- From `PositionEvaluator.piece_square_tables`, the king mapped to the opening
table as in `_init_piece_square_tables`. -/
def piece_square_tables : PieceType → List (List Int)
  | PieceType.pawn => pawn_table
  | PieceType.knight => knight_table
  | PieceType.bishop => bishop_table
  | PieceType.rook => rook_table
  | PieceType.queen => queen_table
  | PieceType.king => king_table_opening

/-- Python list indexing `l[i]` on a row of a piece-square table: indices
`0 <= i < len` read directly, negative indices wrap from the end; any other
index raises `IndexError` in Python, modelled as `none`. -/
def py_index (l : List Int) (i : Int) : Option Int :=
  if 0 ≤ i ∧ i < l.length then some (l.getD i.toNat 0)
  else if -(l.length : Int) ≤ i ∧ i < 0 then some (l.getD (i + l.length).toNat 0)
  else none

/-- Python row indexing `t[i]` on a piece-square table, same conventions
(`none` models `IndexError`). -/
def py_row (t : List (List Int)) (i : Int) : Option (List Int) :=
  if 0 ≤ i ∧ i < t.length then some (t.getD i.toNat [])
  else if -(t.length : Int) ≤ i ∧ i < 0 then some (t.getD (i + t.length).toNat [])
  else none

/-- Double indexing `t[y][x]` as used by `_order_moves` and
`evaluate_piece_position`; `none` models the `IndexError` either level
raises. -/
def table_at (t : List (List Int)) (y x : Int) : Option Int :=
  match py_row t y with
  | none => none
  | some row => py_index row x

/-- Total table access used inside the evaluator and the total move
scorer, collapsing the `IndexError` path to 0.  In Python the error would
propagate; `order_moves_checked` below keeps it explicit, and the
theorems that quantify over domains able to reach the error path are
stated through that checked model. -/
def table_val (t : List (List Int)) (y x : Int) : Int :=
  (table_at t y x).getD 0

/-- The phase-weight dictionary returned by `get_game_phase`. -/
structure GamePhase where
  opening : ℚ
  middlegame : ℚ
  endgame : ℚ
deriving DecidableEq, Repr

/-- From `PositionEvaluator.get_game_phase`: total non-king material against the
7000/4000/1500 thresholds, linear in between. -/
def get_game_phase (s : ChessState) : GamePhase :=
  let total_material : Int := s.board.foldl (fun acc e =>
    if e.2.piece_type ≠ PieceType.king then acc + piece_values e.2.piece_type
    else acc) 0
  if total_material > 7000 then
    { opening := 1, middlegame := 0, endgame := 0 }
  else if total_material > 4000 then
    let opening_weight : ℚ := ((total_material : ℚ) - 4000) / (7000 - 4000)
    { opening := opening_weight, middlegame := 1 - opening_weight, endgame := 0 }
  else if total_material > 1500 then
    let middlegame_weight : ℚ := ((total_material : ℚ) - 1500) / (4000 - 1500)
    { opening := 0, middlegame := middlegame_weight,
      endgame := 1 - middlegame_weight }
  else { opening := 0, middlegame := 0, endgame := 1 }

/-- From `PositionEvaluator.evaluate_material`: signed sum of `piece_values` over
every board entry, the king included, positive for White. -/
def evaluate_material (s : ChessState) : Int :=
  s.board.foldl (fun score e =>
    if e.2.color = PieceColor.white then score + piece_values e.2.piece_type
    else score - piece_values e.2.piece_type) 0

/-- From `PositionEvaluator.evaluate_piece_position`: piece-square sums; a white
king reads the phase-blended opening/endgame tables; every black piece (the
king included) subtracts the unblended `piece_square_tables` entry at the
vertically flipped rank. -/
def evaluate_piece_position (s : ChessState) : ℚ :=
  let phase := get_game_phase s
  s.board.foldl (fun score e =>
    let x := e.1.1
    let y := e.1.2
    let table_value : ℚ :=
      if e.2.piece_type = PieceType.king then
        (table_val king_table_opening y x : ℚ) *
            (phase.opening + phase.middlegame)
          + (table_val king_table_endgame y x : ℚ) * phase.endgame
      else (table_val (piece_square_tables e.2.piece_type) y x : ℚ)
    if e.2.color = PieceColor.white then score + table_value
    else score - (table_val (piece_square_tables e.2.piece_type) (7 - y) x : ℚ))
    0

/-- From `PositionEvaluator.evaluate_mobility`: placeholder returning 0. -/
def evaluate_mobility (s : ChessState) : Int := 0

/-- From `PositionEvaluator.evaluate_king_safety`: placeholder returning 0. -/
def evaluate_king_safety (s : ChessState) : Int := 0

/-- From `PositionEvaluator.evaluate`: material + piece position + phase-weighted
mobility and king-safety terms. -/
def evaluate (s : ChessState) : ℚ :=
  let phase := get_game_phase s
  let material_score := evaluate_material s
  let position_score := evaluate_piece_position s
  let mobility_score := evaluate_mobility s
  let mobility_weight : ℚ := (1 / 10) * phase.middlegame + (1 / 5) * phase.endgame
  let king_safety_score := evaluate_king_safety s
  let king_safety_weight : ℚ := (3 / 10) * phase.opening + (1 / 5) * phase.middlegame
  (material_score : ℚ) + position_score
    + (mobility_score : ℚ) * mobility_weight
    + (king_safety_score : ℚ) * king_safety_weight

/-!  `ai_engine.py` (`ChessAI`).  Python float scores, which the search
seeds with `float('inf')` / `float('-inf')`, are modelled by `Score`:
either an exact rational or one of the two infinities (no NaN arises).
`random.*` calls and the wall-clock time check are modelled by an explicit
`Oracle`; the `nodes_searched` statistic plays no role in any claim and is
not threaded through. -/

/-- A Python float score: finite value or one of the infinities. -/
inductive Score where
  | negInf
  | val (q : ℚ)
  | posInf
deriving DecidableEq, Repr

/-- Float `<` on scores. -/
def Score.ltb : Score → Score → Bool
  | Score.negInf, Score.negInf => false
  | Score.negInf, _ => true
  | Score.val _, Score.negInf => false
  | Score.val a, Score.val b => decide (a < b)
  | Score.val _, Score.posInf => true
  | Score.posInf, _ => false

/-- Python `max` on two scores (returns the first argument on ties). -/
def Score.maxS (a b : Score) : Score := if Score.ltb a b then b else a

/-- Python `min` on two scores (returns the first argument on ties). -/
def Score.minS (a b : Score) : Score := if Score.ltb b a then b else a

/-- Float `>=` on scores. -/
def Score.geb (a b : Score) : Bool := Score.ltb b a || decide (a = b)

/-- Float `<=` on scores. -/
def Score.leb (a b : Score) : Bool := Score.ltb a b || decide (a = b)

/-- From `ChessAI._get_depth_for_difficulty`: the difficulty table 1:2, 2:3, 3:4,
4:5, 5:6, defaulting to 4. -/
def get_depth_for_difficulty (difficulty : Int) : Nat :=
  if difficulty = 1 then 2
  else if difficulty = 2 then 3
  else if difficulty = 3 then 4
  else if difficulty = 4 then 5
  else if difficulty = 5 then 6
  else 4

/-- The per-move body of `ChessAI._order_moves`: `none` models the
`continue` that silently skips a move whose origin square is empty;
otherwise the move is paired with its MVV-LVA-plus-positional score
(Python `//` is floor division, `Int.fdiv`). -/
def move_score (s : ChessState) (m : Move) : Option (Move × Int) :=
  match get_piece_at s m.1.1 m.1.2 with
  | none => none
  | some moving_piece =>
    let score : Int :=
      match get_piece_at s m.2.1 m.2.2 with
      | some target_piece =>
          piece_values target_piece.piece_type
            - Int.fdiv (piece_values moving_piece.piece_type) 10
      | none => 0
    let current_sq_value :=
      table_val (piece_square_tables moving_piece.piece_type) m.1.2 m.1.1
    let new_sq_value :=
      table_val (piece_square_tables moving_piece.piece_type) m.2.2 m.2.1
    some (m, score + Int.fdiv (new_sq_value - current_sq_value) 10)

/-- From `ChessAI._order_moves`: score the moves (skipping empty origins), then
`sort(key=score, reverse=True)` — a stable descending sort, modelled by
`mergeSort` preferring the left element on ties.  This total version reads
the tables through `table_val`; `order_moves_checked` below is the same
computation with the `IndexError` path kept explicit, and the two agree
whenever no index is out of range. -/
def order_moves (moves : List Move) (s : ChessState) : List Move :=
  let move_scores := moves.filterMap (move_score s)
  (move_scores.mergeSort (fun p q => decide (q.2 ≤ p.2))).map Prod.fst

/-- The per-move body of `_order_moves` with the `IndexError` path kept
explicit: the outer `none` is the `IndexError` a table lookup raises,
`some none` is the `continue` skipping an empty origin, and
`some (some p)` is the scored move. -/
def move_score_checked (s : ChessState) (m : Move) :
    Option (Option (Move × Int)) :=
  match get_piece_at s m.1.1 m.1.2 with
  | none => some none
  | some moving_piece =>
    let score : Int :=
      match get_piece_at s m.2.1 m.2.2 with
      | some target_piece =>
          piece_values target_piece.piece_type
            - Int.fdiv (piece_values moving_piece.piece_type) 10
      | none => 0
    match table_at (piece_square_tables moving_piece.piece_type) m.1.2 m.1.1,
        table_at (piece_square_tables moving_piece.piece_type) m.2.2 m.2.1
      with
    | some current_sq_value, some new_sq_value =>
        some (some (m, score + Int.fdiv (new_sq_value - current_sq_value) 10))
    | _, _ => none

/-- The scoring loop of `_order_moves` with error propagation: the first
move whose table lookup raises aborts the whole call, as the Python
exception would. -/
def scored_moves_checked (s : ChessState) :
    List Move → Option (List (Move × Int))
  | [] => some []
  | m :: rest =>
    match move_score_checked s m with
    | none => none
    | some none => scored_moves_checked s rest
    | some (some p) =>
      match scored_moves_checked s rest with
      | none => none
      | some ps => some (p :: ps)

/-- `_order_moves` with the `IndexError` path kept explicit: `none` when
any table lookup raises, otherwise the sorted move list the total
`order_moves` computes. -/
def order_moves_checked (moves : List Move) (s : ChessState) :
    Option (List Move) :=
  match scored_moves_checked s moves with
  | none => none
  | some move_scores =>
    some ((move_scores.mergeSort (fun p q => decide (q.2 ≤ p.2))).map Prod.fst)

/-- From `ChessAI._make_move_copy`: copy every state field, apply `make_move`,
ignore its boolean result.  The `KeyError` that `make_move` raises on an
empty origin (unreachable: the search only applies generated moves) is
modelled by returning the copy unchanged. -/
def make_move_copy (s : ChessState) (m : Move) : ChessState :=
  match make_move s m.1.1 m.1.2 m.2.1 m.2.2 none with
  | some r => r.2
  | none => s

/-- From `ChessAI._evaluate_position`: the evaluator's score plus
`random.uniform(-5, 5)` noise, modelled by a noise oracle; always finite. -/
def evaluate_position (noise : ChessState → ℚ) (s : ChessState) : Score :=
  Score.val (evaluate s + noise s)

/-- The maximizing inner loop of `_alpha_beta`, with the
`alpha >= beta` beta-cutoff `break`. -/
def ab_max_loop (f : ChessState → Score → Score → Score) (s : ChessState) :
    List Move → Score → Score → Score → Score
  | [], value, _, _ => value
  | m :: rest, value, alpha, beta =>
    let new_state := make_move_copy s m
    let value1 := Score.maxS value (f new_state alpha beta)
    let alpha1 := Score.maxS alpha value1
    if Score.geb alpha1 beta then value1
    else ab_max_loop f s rest value1 alpha1 beta

/-- The minimizing inner loop of `_alpha_beta`, with the
`beta <= alpha` alpha-cutoff `break`. -/
def ab_min_loop (f : ChessState → Score → Score → Score) (s : ChessState) :
    List Move → Score → Score → Score → Score
  | [], value, _, _ => value
  | m :: rest, value, alpha, beta =>
    let new_state := make_move_copy s m
    let value1 := Score.minS value (f new_state alpha beta)
    let beta1 := Score.minS beta value1
    if Score.leb beta1 alpha then value1
    else ab_min_loop f s rest value1 alpha beta1

/-- From `ChessAI._alpha_beta`.  Terminal cases: depth 0 (or the stubbed
checkmate/stalemate tests) evaluates the position; an empty legal-move list
returns the oriented infinity when `state.is_check()` holds and exactly 0
otherwise. -/
def alpha_beta (noise : ChessState → ℚ) :
    Nat → ChessState → Score → Score → Bool → Score
  | 0, s, _, _, _ => evaluate_position noise s
  | depth + 1, s, alpha, beta, maximizing_player =>
    if is_checkmate s || is_stalemate s then evaluate_position noise s
    else
      let legal_moves := generate_moves s
      if legal_moves.isEmpty then
        if is_check s then
          (if maximizing_player then Score.negInf else Score.posInf)
        else Score.val 0
      else
        let ordered_moves := order_moves legal_moves s
        if maximizing_player then
          ab_max_loop (fun ns a b => alpha_beta noise depth ns a b false) s
            ordered_moves Score.negInf alpha beta
        else
          ab_min_loop (fun ns a b => alpha_beta noise depth ns a b true) s
            ordered_moves Score.posInf alpha beta

/-- The oracle for `random.*` draws and the wall-clock budget check inside
`get_best_move`.  `random.choice` is modelled as an arbitrary index taken
modulo the list length; `time_up d` tells whether the elapsed time exceeded
80% of the limit after finishing depth `d`. -/
structure Oracle where
  noise : ChessState → ℚ
  skip_rand : Bool
  skip_choice : Nat
  swap_rand : Bool
  swap_choice : Nat
  time_up : Nat → Bool

/-- Model of `random.choice(l)` under a choice index: `l[i % len(l)]`. -/
def pick (i : Nat) (l : List Move) : Move :=
  l.getD (i % l.length) ((0, 0), (0, 0))

/-- The root maximizing loop of `get_best_move` (no cutoff `break` at the
root): keep the move whose value strictly improves `best_value`, updating
`alpha` from `best_value` after each move. -/
def root_max_loop (f : ChessState → Score → Score → Score) (s : ChessState) :
    List Move → Option Move → Score → Score → Score → Option Move × Score
  | [], best_move, best_value, _, _ => (best_move, best_value)
  | m :: rest, best_move, best_value, alpha, beta =>
    let new_state := make_move_copy s m
    let value := f new_state alpha beta
    let best1 := if Score.ltb best_value value then (some m, value)
      else (best_move, best_value)
    root_max_loop f s rest best1.1 best1.2 (Score.maxS alpha best1.2) beta

/-- The root minimizing loop of `get_best_move`. -/
def root_min_loop (f : ChessState → Score → Score → Score) (s : ChessState) :
    List Move → Option Move → Score → Score → Score → Option Move × Score
  | [], best_move, best_value, _, _ => (best_move, best_value)
  | m :: rest, best_move, best_value, alpha, beta =>
    let new_state := make_move_copy s m
    let value := f new_state alpha beta
    let best1 := if Score.ltb value best_value then (some m, value)
      else (best_move, best_value)
    root_min_loop f s rest best1.1 best1.2 alpha (Score.minS beta best1.2)

/-- The iterative-deepening loop of `get_best_move` over
`range(1, max_depth + 1)`: each depth re-orders the moves, runs the root
loop for the side to move with fresh `alpha`/`beta` and a fresh
`best_value`, and the time check after the depth breaks out of the loop. -/
def deepening_loop (o : Oracle) (s : ChessState) (legal_moves : List Move) :
    List Nat → Option Move → Option Move
  | [], best_move => best_move
  | current_depth :: rest, best_move =>
    let ordered_moves := order_moves legal_moves s
    let best1 :=
      if s.active_color = PieceColor.white then
        (root_max_loop (fun ns a b =>
            alpha_beta o.noise (current_depth - 1) ns a b false) s
          ordered_moves best_move Score.negInf Score.negInf Score.posInf).1
      else
        (root_min_loop (fun ns a b =>
            alpha_beta o.noise (current_depth - 1) ns a b true) s
          ordered_moves best_move Score.posInf Score.negInf Score.posInf).1
    if o.time_up current_depth then best1
    else deepening_loop o s legal_moves rest best1

/-- From `ChessAI.get_best_move`: `None` without legal moves; a single legal move
is returned immediately; at difficulty 1 a 30% draw returns a uniformly
random legal move; otherwise iterative deepening, and at difficulty <= 2 a
20% draw substitutes a random *other* legal move. -/
def get_best_move (difficulty : Int) (o : Oracle) (s : ChessState) :
    Option Move :=
  let legal_moves := generate_moves s
  if legal_moves.isEmpty then none
  else if legal_moves.length = 1 then legal_moves.head?
  else if difficulty = 1 && o.skip_rand then
    some (pick o.skip_choice legal_moves)
  else
    let max_depth := get_depth_for_difficulty difficulty
    let best_move := deepening_loop o s legal_moves (List.range' 1 max_depth)
      none
    if decide (difficulty ≤ 2) && o.swap_rand then
      let alternative_moves :=
        match best_move with
        | some bm => legal_moves.filter (fun m => m ≠ bm)
        | none => legal_moves
      if alternative_moves.isEmpty then best_move
      else some (pick o.swap_choice alternative_moves)
    else best_move

/-! ### Concrete positions used by the theorems -/

/-- The classic stalemate position of the spec: Black king h8 = (7,7),
White king f7 = (5,6), White queen g6 = (6,5), Black to move.  Castling
rights are spent, as in any game that reaches this position (both kings
have moved). -/
def stalemate_state : ChessState where
  board := [((7, 7), ChessPiece.mk PieceType.king PieceColor.black),
            ((5, 6), ChessPiece.mk PieceType.king PieceColor.white),
            ((6, 5), ChessPiece.mk PieceType.queen PieceColor.white)]
  active_color := PieceColor.black
  castling_rights := { white := (false, false), black := (false, false) }
  en_passant_target := none
  halfmove_clock := 0
  fullmove_number := 1
  move_history := []

/-- A checkmate position: Black king h8 = (7,7), White queen g7 = (6,6)
protected by the White king g6 = (6,5), Black to move.  Black has no legal
move and the Black king's square is attacked. -/
def mate_state : ChessState where
  board := [((7, 7), ChessPiece.mk PieceType.king PieceColor.black),
            ((6, 6), ChessPiece.mk PieceType.queen PieceColor.white),
            ((6, 5), ChessPiece.mk PieceType.king PieceColor.white)]
  active_color := PieceColor.black
  castling_rights := { white := (false, false), black := (false, false) }
  en_passant_target := none
  halfmove_clock := 0
  fullmove_number := 1
  move_history := []

/-- The position after the double push e2e4 (`make_move(4, 1, 4, 3)`) from
the starting position. -/
def after_e4_state : ChessState :=
  make_move_copy ChessState.init ((4, 1), (4, 3))

/-- The starting position with Black to move and a (manually planted)
en-passant target e3 = (4,2): probes whether applying a move clears the
target. -/
def ep_probe_state : ChessState :=
  { ChessState.init with
    active_color := PieceColor.black
    en_passant_target := some (4, 2) }

/-- A board holding only a White king: separates the implemented material
sum from the specified one. -/
def lone_king_state : ChessState where
  board := [((0, 0), ChessPiece.mk PieceType.king PieceColor.white)]
  active_color := PieceColor.white
  castling_rights := { white := (false, false), black := (false, false) }
  en_passant_target := none
  halfmove_clock := 0
  fullmove_number := 1
  move_history := []

/-- A position this code can reach (it never clears castling rights and
its castling test checks neither the rook nor the board edge): the White
king alone on h1 = (7,0) with all castling rights still set, Black king on
a8 = (0,7), White to move.  The kingside castling test then passes — the
probed squares (8,0) and (9,0) are simply absent from the board dict — so
`generate_moves` emits the off-board castle (7,0) -> (9,0), whose
destination file 9 makes `_order_moves` raise `IndexError`. -/
def h1_castle_state : ChessState where
  board := [((7, 0), ChessPiece.mk PieceType.king PieceColor.white),
            ((0, 7), ChessPiece.mk PieceType.king PieceColor.black)]
  active_color := PieceColor.white
  castling_rights := { white := (true, true), black := (true, true) }
  en_passant_target := none
  halfmove_clock := 0
  fullmove_number := 1
  move_history := []

/-- Modelled from the spec: the material component the specification
describes, with the base values Pawn 100, Knight 320, Bishop 330, Rook 500,
Queen 900 summed signed over all non-king pieces and the king never added
to the total.  (`evaluate_material` in `evaluation.py` is the
implementation this is compared against.) -/
def material_sum_spec (s : ChessState) : Int :=
  s.board.foldl (fun score e =>
    if e.2.piece_type = PieceType.king then score
    else if e.2.color = PieceColor.white then
      score + piece_values e.2.piece_type
    else score - piece_values e.2.piece_type) 0

/-- The signed king count of a board (+1 per White king, -1 per Black
king): the exact amount by which `evaluate_material` departs from
`material_sum_spec`, scaled by the king's nominal value 20000. -/
def king_balance (s : ChessState) : Int :=
  s.board.foldl (fun n e =>
    if e.2.piece_type = PieceType.king then
      (if e.2.color = PieceColor.white then n + 1 else n - 1)
    else n) 0

/-! ### Theorems -/

/-- C2 (code bug): a well-formed move absent from the generated legal list
is *not* rejected.  `is_valid_move` is a stub returning `True`, so
`make_move(0,0,7,7)` — moving the rook a1 onto h8 across the whole board
from the starting position, a move not in `generate_moves` — returns `True`
and mutates the position (board changed, side to move flipped), where the
claim requires `False` and an unchanged position. -/
theorem illegal_move_accepted_and_state_changed :
    (((0, 0), (7, 7)) : Move) ∉ generate_moves ChessState.init ∧
    is_valid_move ChessState.init 0 0 7 7 = true ∧
    (make_move ChessState.init 0 0 7 7 none).map
        (fun r => (r.1, r.2.board == ChessState.init.board, r.2.active_color))
      = some (true, false, PieceColor.black) :=
  ⟨by decide, by decide, by decide⟩

/-- C3 (code bug): in the classic stalemate position (Black king h8, White
king f7, White queen g6, Black to move) the legal-move list is empty and
`is_checkmate` is false — as the claim states — but `is_stalemate`, a stub
returning `False`, is false where the claim requires true.  The position is
genuinely not in check (the Black king's square is unattacked). -/
theorem stalemate_position_not_reported :
    generate_moves stalemate_state = [] ∧
    is_square_attacked stalemate_state.board 7 7 PieceColor.black = false ∧
    is_checkmate stalemate_state = false ∧
    is_stalemate stalemate_state = false :=
  ⟨by decide, by decide, rfl, rfl⟩

/-- C4 (code bug): `make_move` never touches `en_passant_target`.  After the
double push e2e4 from the starting position the target stays `None` (the
claim requires the skipped square e3 = (4,2)), and a planted target
survives an unrelated reply a7a6 (the claim requires it cleared on the very
next applied move). -/
theorem en_passant_target_never_updated :
    (make_move ChessState.init 4 1 4 3 none).map
        (fun r => r.2.en_passant_target) = some none ∧
    (make_move ep_probe_state 0 6 0 5 none).map
        (fun r => r.2.en_passant_target) = some (some (4, 2)) :=
  ⟨by decide, by decide⟩

/-- C6 (code bug): in the alpha-beta recursion a position with no legal
moves scores exactly 0 whether or not the side to move is in check, because
`is_check` is a stub returning `False`.  In the concrete mate position
(no legal moves, king square attacked) the recursion returns 0 at depth 1
for both the maximizing and the minimizing frame, where the claim requires
the oriented infinity; the stalemate half of the claim (score exactly 0)
does hold. -/
theorem mate_scored_as_stalemate :
    generate_moves mate_state = [] ∧
    is_square_attacked mate_state.board 7 7 PieceColor.black = true ∧
    (∀ (noise : ChessState → ℚ) (a b : Score) (maximizing_player : Bool),
      alpha_beta noise 1 mate_state a b maximizing_player = Score.val 0) := by
  have hgen : generate_moves mate_state = [] := by decide
  refine ⟨hgen, by decide, ?_⟩
  intro noise a b maximizing_player
  show alpha_beta noise (0 + 1) mate_state a b maximizing_player = Score.val 0
  simp [alpha_beta, is_checkmate, is_stalemate, is_check, hgen]

/-- C7 (confirmed): on the initial position `generate_moves` returns
exactly the canonical 20 opening moves, in board insertion order: the 16
single and double pawn pushes followed by the 4 knight moves, with no
castling move. -/
theorem initial_position_twenty_moves :
    generate_moves ChessState.init =
      [((0, 1), (0, 2)), ((0, 1), (0, 3)), ((1, 1), (1, 2)), ((1, 1), (1, 3)),
       ((2, 1), (2, 2)), ((2, 1), (2, 3)), ((3, 1), (3, 2)), ((3, 1), (3, 3)),
       ((4, 1), (4, 2)), ((4, 1), (4, 3)), ((5, 1), (5, 2)), ((5, 1), (5, 3)),
       ((6, 1), (6, 2)), ((6, 1), (6, 3)), ((7, 1), (7, 2)), ((7, 1), (7, 3)),
       ((1, 0), (2, 2)), ((1, 0), (0, 2)), ((6, 0), (7, 2)), ((6, 0), (5, 2))]
    ∧ (generate_moves ChessState.init).length = 20 :=
  ⟨by decide, by decide⟩

/-- C8 (code bug): the FEN round trip cannot reproduce a position.
`get_fen` is a placeholder returning the fixed starting-position FEN for
every state and `set_from_fen` is a no-op, so serializing the position
after e2e4 yields the starting FEN, and deserializing that text into a
fresh state leaves the starting position — whose side to move differs from
the serialized position's. -/
theorem fen_round_trip_fails :
    get_fen after_e4_state = get_fen ChessState.init ∧
    (∀ (s : ChessState) (fen : String), set_from_fen s fen = s) ∧
    set_from_fen ChessState.init (get_fen after_e4_state) = ChessState.init ∧
    (set_from_fen ChessState.init (get_fen after_e4_state)).active_color
      ≠ after_e4_state.active_color :=
  ⟨rfl, fun s fen => rfl, rfl, by decide⟩

/-- C9 counterexample: on a board holding only a White king,
`evaluate_material` returns 20000 while the specified non-king sum is 0:
the king's nominal value *is* added to the material total, refuting the
claim as stated. -/
theorem evaluate_material_counts_king :
    evaluate_material lone_king_state = 20000 ∧
    material_sum_spec lone_king_state = 0 ∧
    evaluate_material lone_king_state ≠ material_sum_spec lone_king_state :=
  ⟨by decide, by decide, by decide⟩

/-- The three material folds, related over arbitrary accumulators: the
implemented sum equals the specified non-king sum plus 20000 per signed
king. -/
theorem material_fold (b : Board) : ∀ (a c d : Int), a = c + 20000 * d →
    (b.foldl (fun score e =>
      if e.2.color = PieceColor.white then score + piece_values e.2.piece_type
      else score - piece_values e.2.piece_type) a)
    = (b.foldl (fun score e =>
        if e.2.piece_type = PieceType.king then score
        else if e.2.color = PieceColor.white then
          score + piece_values e.2.piece_type
        else score - piece_values e.2.piece_type) c)
      + 20000 * (b.foldl (fun n e =>
        if e.2.piece_type = PieceType.king then
          (if e.2.color = PieceColor.white then n + 1 else n - 1)
        else n) d) := by
  induction b with
  | nil => intro a c d h; simpa using h
  | cons e rest ih =>
    intro a c d h
    simp only [List.foldl_cons]
    apply ih
    by_cases hk : e.2.piece_type = PieceType.king
    · by_cases hc : e.2.color = PieceColor.white <;>
        simp [hk, hc, piece_values] <;> omega
    · by_cases hc : e.2.color = PieceColor.white <;> simp [hk, hc] <;> omega

/-- C9 amended: for every position, `evaluate_material` equals the
specified signed non-king material sum *plus* the king's nominal value
20000 counted signed per king (so the two agree exactly on boards whose
kings balance, e.g. one king per side, and differ otherwise). -/
theorem evaluate_material_eq_spec_plus_kings (s : ChessState) :
    evaluate_material s = material_sum_spec s + 20000 * king_balance s := by
  unfold evaluate_material material_sum_spec king_balance
  exact material_fold s.board 0 0 0 (by ring)

/-- A key that occurs in the board association list is found by lookup. -/
theorem dictLookup_isSome_of_mem {b : Board} {k : Square} {v : ChessPiece}
    (h : (k, v) ∈ b) : (dictLookup b k).isSome := by
  induction b with
  | nil => cases h
  | cons e rest ih =>
    obtain ⟨k', v'⟩ := e
    by_cases hk : k' = k
    · simp [dictLookup, hk]
    · rcases List.mem_cons.1 h with he | ht
      · cases he; exact absurd rfl hk
      · simpa [dictLookup, hk] using ih ht

/-- Origin of a singleton move list. -/
theorem from_of_single {p q : Square} {m : Move} (h : m ∈ [(p, q)]) :
    m.1 = p := by
  simp only [List.mem_singleton] at h; rw [h]

/-- Origin of the empty move list, vacuously. -/
theorem from_of_nil {p : Square} {m : Move} (h : m ∈ ([] : List Move)) :
    m.1 = p := by cases h

/-- Every pseudo-legal pawn move generated for the pawn on `(x, y)`
originates at `(x, y)`. -/
theorem generate_pawn_moves_from (s : ChessState) (x y : Int)
    (piece : ChessPiece) :
    ∀ m ∈ generate_pawn_moves s x y piece, m.1 = (x, y) := by
  simp only [generate_pawn_moves]
  by_cases hc : piece.color = PieceColor.white
  · rw [if_pos hc]
    intro m hm
    rcases List.mem_append.1 hm with h | h
    · revert h
      split
      · intro h
        rcases List.mem_cons.1 h with rfl | h2
        · rfl
        · revert h2
          split
          · split
            · exact from_of_single
            · exact from_of_nil
          · exact from_of_nil
      · exact from_of_nil
    · obtain ⟨dx, hdx, h1⟩ := List.mem_flatMap.1 h
      revert h1
      split
      · split
        · split
          · exact from_of_single
          · split
            · exact from_of_single
            · exact from_of_nil
        · split
          · exact from_of_single
          · exact from_of_nil
      · exact from_of_nil
  · rw [if_neg hc]
    intro m hm
    rcases List.mem_append.1 hm with h | h
    · revert h
      split
      · intro h
        rcases List.mem_cons.1 h with rfl | h2
        · rfl
        · revert h2
          split
          · split
            · exact from_of_single
            · exact from_of_nil
          · exact from_of_nil
      · exact from_of_nil
    · obtain ⟨dx, hdx, h1⟩ := List.mem_flatMap.1 h
      revert h1
      split
      · split
        · split
          · exact from_of_single
          · split
            · exact from_of_single
            · exact from_of_nil
        · split
          · exact from_of_single
          · exact from_of_nil
      · exact from_of_nil

/-- Every pseudo-legal king move generated for the king on `(x, y)`
originates at `(x, y)`. -/
theorem generate_king_moves_from (s : ChessState) (x y : Int)
    (piece : ChessPiece) :
    ∀ m ∈ generate_king_moves s x y piece, m.1 = (x, y) := by
  simp only [generate_king_moves]
  by_cases hc : piece.color = PieceColor.white
  · rw [if_pos hc]
    intro m hm
    rcases List.mem_append.1 hm with h | h
    · obtain ⟨d, hd, h1⟩ := List.mem_flatMap.1 h
      revert h1
      split
      · exact from_of_nil
      · split
        · exact from_of_single
        · split
          · exact from_of_single
          · exact from_of_nil
    · revert h
      split
      · intro h
        rcases List.mem_append.1 h with h2 | h2 <;> revert h2 <;> split <;>
          first | exact from_of_single | exact from_of_nil
      · exact from_of_nil
  · rw [if_neg hc]
    intro m hm
    rcases List.mem_append.1 hm with h | h
    · obtain ⟨d, hd, h1⟩ := List.mem_flatMap.1 h
      revert h1
      split
      · exact from_of_nil
      · split
        · exact from_of_single
        · split
          · exact from_of_single
          · exact from_of_nil
    · revert h
      split
      · intro h
        rcases List.mem_append.1 h with h2 | h2 <;> revert h2 <;> split <;>
          first | exact from_of_single | exact from_of_nil
      · exact from_of_nil

/-- Every sliding move generated along one ray from `(x, y)` originates at
`(x, y)`. -/
theorem slide_dir_from (s : ChessState) (piece : ChessPiece)
    (x y dx dy : Int) :
    ∀ dists, ∀ m ∈ slide_dir s piece x y dx dy dists, m.1 = (x, y) := by
  intro dists
  induction dists with
  | nil => exact fun m hm => absurd hm (List.not_mem_nil m)
  | cons d rest ih =>
    intro m
    simp only [slide_dir]
    split
    · exact from_of_nil
    · split
      · intro hm
        rcases List.mem_cons.1 hm with rfl | h2
        · rfl
        · exact ih m h2
      · split
        · exact from_of_single
        · exact from_of_nil

/-- A move surviving `_generate_piece_moves` originates at the piece's
square and passes the legality filter. -/
theorem generate_piece_moves_spec {s : ChessState} {x y : Int}
    {piece : ChessPiece} {m : Move}
    (h : m ∈ generate_piece_moves s x y piece) :
    m.1 = (x, y) ∧ would_be_in_check_after_move s m = false := by
  simp only [generate_piece_moves, List.mem_filter, decide_eq_true_eq] at h
  obtain ⟨hmem, hfil⟩ := h
  refine ⟨?_, hfil⟩
  split at hmem
  · exact generate_pawn_moves_from s x y piece m hmem
  · split at hmem
    · exact generate_king_moves_from s x y piece m hmem
    · obtain ⟨d, hd, hm⟩ := List.mem_flatMap.1 hmem
      exact slide_dir_from s piece x y d.1 d.2 _ m hm

/-- Every generated move comes from some board entry of the active color. -/
theorem mem_generate_moves_exists {s : ChessState} {m : Move}
    (h : m ∈ generate_moves s) :
    ∃ e ∈ s.board, e.2.color = s.active_color ∧
      m ∈ generate_piece_moves s e.1.1 e.1.2 e.2 := by
  simp only [generate_moves, List.mem_flatMap] at h
  obtain ⟨e, he, hm⟩ := h
  split at hm
  · exact ⟨e, he, by assumption, hm⟩
  · cases hm

/-- The origin square of every generated move holds a piece. -/
theorem origin_occupied {s : ChessState} {m : Move}
    (h : m ∈ generate_moves s) :
    (get_piece_at s m.1.1 m.1.2).isSome := by
  obtain ⟨e, he, hc, hm⟩ := mem_generate_moves_exists h
  obtain ⟨hfrom, _⟩ := generate_piece_moves_spec hm
  have hm1 : m.1 = e.1 := by rw [hfrom]
  unfold get_piece_at
  rw [show ((m.1.1, m.1.2) : Square) = e.1 by rw [← hm1]]
  exact dictLookup_isSome_of_mem (show (e.1, e.2) ∈ s.board by simpa using he)

/-- Every generated move passes the legality filter. -/
theorem generated_move_safe {s : ChessState} {m : Move}
    (h : m ∈ generate_moves s) :
    would_be_in_check_after_move s m = false := by
  obtain ⟨e, he, hc, hm⟩ := mem_generate_moves_exists h
  exact (generate_piece_moves_spec hm).2

/-- C1 (confirmed): for every position and every move in the generated
legal list, applying the move (the search's `_make_move_copy`, i.e. the
board pop/assign that `make_move` performs) never leaves the moving side's
king on an attacked square: whenever the mover's king is found on the
resulting board, its square is not attacked by the opponent. -/
theorem legal_move_never_leaves_king_attacked (s : ChessState) (m : Move)
    (h : m ∈ generate_moves s) (kx ky : Int)
    (hk : find_king (make_move_copy s m).board s.active_color
      = some (kx, ky)) :
    is_square_attacked (make_move_copy s m).board kx ky s.active_color
      = false := by
  have hw := generated_move_safe h
  have ho := origin_occupied h
  obtain ⟨piece, hp⟩ : ∃ p, dictLookup s.board (m.1.1, m.1.2) = some p := by
    cases hdl : dictLookup s.board (m.1.1, m.1.2)
    · rw [get_piece_at, hdl] at ho; cases ho
    · exact ⟨_, rfl⟩
  have hp1 : dictLookup s.board m.1 = some piece := by
    rwa [show ((m.1.1, m.1.2) : Square) = m.1 from rfl] at hp
  have hboard : (make_move_copy s m).board
      = dictSet (dictErase s.board m.1) m.2 piece := by
    simp only [make_move_copy, make_move, is_valid_move, hp]
    rfl
  rw [hboard] at hk ⊢
  unfold would_be_in_check_after_move at hw
  simp only [copy_state] at hw
  rw [hp1] at hw
  simp only at hw
  rw [hk] at hw
  simpa using hw

/-- C1 witness: the double push e2e4 is generated on the initial position;
after applying it the White king is found on e1 = (4,0) and that square is
not attacked by Black. -/
theorem legal_move_never_leaves_king_attacked_witness :
    (((4, 1), (4, 3)) : Move) ∈ generate_moves ChessState.init ∧
    find_king (make_move_copy ChessState.init ((4, 1), (4, 3))).board
      ChessState.init.active_color = some (4, 0) ∧
    is_square_attacked
      (make_move_copy ChessState.init ((4, 1), (4, 3))).board 4 0
      ChessState.init.active_color = false :=
  ⟨by decide, by decide,
    legal_move_never_leaves_king_attacked ChessState.init ((4, 1), (4, 3))
      (by decide) 4 0 (by decide)⟩

/-- Lemma: `move_score` keeps the move it scores. -/
theorem move_score_fst {s : ChessState} {m : Move} {p : Move × Int}
    (h : move_score s m = some p) : p.1 = m := by
  unfold move_score at h
  split at h
  · cases h
  · injection h with h2
    rw [← h2]

/-- Lemma: `move_score` returns `none` exactly on an empty origin square. -/
theorem move_score_none_iff {s : ChessState} {m : Move} :
    move_score s m = none ↔ get_piece_at s m.1.1 m.1.2 = none := by
  unfold move_score
  cases h : get_piece_at s m.1.1 m.1.2 <;> simp

/-- Scoring the moves and projecting back recovers exactly the moves whose
origin square is occupied, in order. -/
theorem map_fst_filterMap_move_score (s : ChessState) :
    ∀ moves : List Move,
      (moves.filterMap (move_score s)).map Prod.fst
        = moves.filter (fun m => (get_piece_at s m.1.1 m.1.2).isSome) := by
  intro moves
  induction moves with
  | nil => rfl
  | cons m rest ih =>
    cases hms : move_score s m with
    | none =>
      have hnone : get_piece_at s m.1.1 m.1.2 = none :=
        move_score_none_iff.1 hms
      simp [List.filterMap_cons, hms, List.filter_cons, hnone, ih]
    | some p =>
      have hfst : p.1 = m := move_score_fst hms
      have hsome : (get_piece_at s m.1.1 m.1.2).isSome = true := by
        cases hg : get_piece_at s m.1.1 m.1.2
        · rw [move_score_none_iff.2 hg] at hms; cases hms
        · rfl
      simp [List.filterMap_cons, hms, List.filter_cons, hsome, ih, hfst]

/-- Lemma: `_order_moves` permutes the occupied-origin moves of its input (the
sort contributes only a rearrangement). -/
theorem order_moves_perm (s : ChessState) (moves : List Move) :
    (order_moves moves s).Perm
      (moves.filter (fun m => (get_piece_at s m.1.1 m.1.2).isSome)) := by
  unfold order_moves
  have h2 := (List.mergeSort_perm (moves.filterMap (move_score s))
      (fun p q => decide (q.2 ≤ p.2))).map Prod.fst
  rwa [map_fst_filterMap_move_score] at h2

/-- Shape of every piece-square table: 8 rows of 8 entries. -/
theorem piece_square_tables_shape (pt : PieceType) :
    (piece_square_tables pt).length = 8 ∧
      ∀ row ∈ piece_square_tables pt, row.length = 8 := by
  cases pt <;> exact ⟨rfl, by decide⟩

/-- On an 8-by-8 table, on-board coordinates never raise: the double
indexing succeeds. -/
theorem table_at_isSome_of_bounds {t : List (List Int)} (ht : t.length = 8)
    (hrows : ∀ row ∈ t, row.length = 8) {y x : Int}
    (h0y : 0 ≤ y) (h8y : y < 8) (h0x : 0 ≤ x) (h8x : x < 8) :
    (table_at t y x).isSome := by
  have hcy : 0 ≤ y ∧ y < (t.length : Int) := by omega
  have hyn : y.toNat < t.length := by omega
  have hrow : t.getD y.toNat [] ∈ t := by
    rw [List.getD_eq_getElem?_getD, List.getElem?_eq_getElem hyn]
    exact List.getElem_mem hyn
  have hrlen := hrows _ hrow
  have hcx : 0 ≤ x ∧ x < ((t.getD y.toNat []).length : Int) := by omega
  unfold table_at py_row
  rw [if_pos hcy]
  show (py_index (t.getD y.toNat []) x).isSome
  unfold py_index
  rw [if_pos hcx]
  rfl

/-- On-board squares make the per-move scoring body succeed: either the
origin is empty (the `continue`) or the move is scored, never an
`IndexError`. -/
theorem move_score_checked_isSome {s : ChessState} {m : Move}
    (h1 : on_board m.1.1 m.1.2 = true) (h2 : on_board m.2.1 m.2.2 = true) :
    (move_score_checked s m).isSome := by
  have hb1 : 0 ≤ m.1.1 ∧ m.1.1 < 8 ∧ 0 ≤ m.1.2 ∧ m.1.2 < 8 := by
    simpa [on_board] using h1
  have hb2 : 0 ≤ m.2.1 ∧ m.2.1 < 8 ∧ 0 ≤ m.2.2 ∧ m.2.2 < 8 := by
    simpa [on_board] using h2
  cases hg : get_piece_at s m.1.1 m.1.2 with
  | none => simp [move_score_checked, hg]
  | some moving_piece =>
    obtain ⟨hlen, hrows⟩ := piece_square_tables_shape moving_piece.piece_type
    obtain ⟨cur, hcur⟩ := Option.isSome_iff_exists.1
      (table_at_isSome_of_bounds hlen hrows hb1.2.2.1 hb1.2.2.2 hb1.1
        hb1.2.1)
    obtain ⟨nw, hnw⟩ := Option.isSome_iff_exists.1
      (table_at_isSome_of_bounds hlen hrows hb2.2.2.1 hb2.2.2.2 hb2.1
        hb2.2.1)
    unfold move_score_checked
    simp [hg, hcur, hnw]

/-- When the checked scorer skips a move, so does the total one. -/
theorem move_score_checked_skip {s : ChessState} {m : Move}
    (h : move_score_checked s m = some none) : move_score s m = none := by
  cases hg : get_piece_at s m.1.1 m.1.2 with
  | none =>
    unfold move_score
    rw [hg]
  | some moving_piece =>
    exfalso
    unfold move_score_checked at h
    rcases ht1 : table_at (piece_square_tables moving_piece.piece_type)
        m.1.2 m.1.1 with _ | cur <;>
      rcases ht2 : table_at (piece_square_tables moving_piece.piece_type)
          m.2.2 m.2.1 with _ | nw <;>
        simp [hg, ht1, ht2] at h

/-- When the checked scorer scores a move, the total one computes the same
pair (its collapsed defaults are not used). -/
theorem move_score_checked_some {s : ChessState} {m : Move} {p : Move × Int}
    (h : move_score_checked s m = some (some p)) : move_score s m = some p
    := by
  cases hg : get_piece_at s m.1.1 m.1.2 with
  | none =>
    unfold move_score_checked at h
    simp [hg] at h
  | some moving_piece =>
    unfold move_score_checked at h
    cases ht1 : table_at (piece_square_tables moving_piece.piece_type)
        m.1.2 m.1.1 with
    | none => simp [hg, ht1] at h
    | some cur =>
      cases ht2 : table_at (piece_square_tables moving_piece.piece_type)
          m.2.2 m.2.1 with
      | none => simp [hg, ht1, ht2] at h
      | some nw =>
        simp only [hg, ht1, ht2, Option.some.injEq] at h
        have hv1 : table_val (piece_square_tables moving_piece.piece_type)
            m.1.2 m.1.1 = cur := by unfold table_val; rw [ht1]; rfl
        have hv2 : table_val (piece_square_tables moving_piece.piece_type)
            m.2.2 m.2.1 = nw := by unfold table_val; rw [ht2]; rfl
        unfold move_score
        simp only [hg, hv1, hv2, h]

/-- The checked scoring loop, when it raises no error, computes exactly the
scored list of the total `_order_moves`. -/
theorem scored_moves_checked_eq {s : ChessState} :
    ∀ {moves : List Move} {ps : List (Move × Int)},
      scored_moves_checked s moves = some ps →
      ps = moves.filterMap (move_score s) := by
  intro moves
  induction moves with
  | nil =>
    intro ps h
    unfold scored_moves_checked at h
    cases h
    rfl
  | cons m rest ih =>
    intro ps h
    unfold scored_moves_checked at h
    cases hmc : move_score_checked s m with
    | none => rw [hmc] at h; cases h
    | some v =>
      rw [hmc] at h
      cases v with
      | none =>
        rw [List.filterMap_cons, move_score_checked_skip hmc]
        exact ih h
      | some p =>
        cases hr : scored_moves_checked s rest with
        | none => rw [hr] at h; cases h
        | some ps2 =>
          rw [hr] at h
          cases h
          rw [List.filterMap_cons, move_score_checked_some hmc, ih hr]

/-- On a move list whose squares all lie on the board, the checked scoring
loop raises no error. -/
theorem scored_moves_checked_isSome {s : ChessState} :
    ∀ {moves : List Move},
      (∀ m ∈ moves, on_board m.1.1 m.1.2 = true ∧
        on_board m.2.1 m.2.2 = true) →
      (scored_moves_checked s moves).isSome := by
  intro moves
  induction moves with
  | nil => intro _; rfl
  | cons m rest ih =>
    intro hall
    have hm := hall m (List.mem_cons_self m rest)
    have hrest := fun z hz => hall z (List.mem_cons_of_mem m hz)
    unfold scored_moves_checked
    obtain ⟨v, hv⟩ := Option.isSome_iff_exists.1
      (move_score_checked_isSome hm.1 hm.2)
    rw [hv]
    cases v with
    | none => exact ih hrest
    | some p =>
      obtain ⟨ps, hps⟩ := Option.isSome_iff_exists.1 (ih hrest)
      rw [hps]
      rfl

/-- C10 (corrected, amended): for every position and every move list whose
moves lie on the board (squares in 0..7, the spec's notion of Square),
`_order_moves` raises no `IndexError` — the checked model returns exactly
the total ordering — and the result is a permutation of the moves whose
origin square holds a piece, hence of the whole input when every origin is
occupied (as for every generated move list); a move with an empty origin is
silently omitted from the scored list rather than causing an error.
Without the on-board restriction the original claim fails: see the
counterexample, where an occupied origin with an off-board destination
makes `_order_moves` raise. -/
theorem order_moves_checked_is_permutation (s : ChessState)
    (moves : List Move)
    (hsq : ∀ m ∈ moves, on_board m.1.1 m.1.2 = true ∧
      on_board m.2.1 m.2.2 = true) :
    order_moves_checked moves s = some (order_moves moves s) ∧
    (order_moves moves s).Perm
      (moves.filter (fun m => (get_piece_at s m.1.1 m.1.2).isSome)) ∧
    ((∀ m ∈ moves, (get_piece_at s m.1.1 m.1.2).isSome) →
      (order_moves moves s).Perm moves) := by
  obtain ⟨ps, hps⟩ := Option.isSome_iff_exists.1
    (scored_moves_checked_isSome hsq)
  refine ⟨?_, order_moves_perm s moves, fun hall => ?_⟩
  · unfold order_moves_checked order_moves
    rw [hps, scored_moves_checked_eq hps]
  · have hflt : moves.filter (fun m => (get_piece_at s m.1.1 m.1.2).isSome)
        = moves := List.filter_eq_self.2 hall
    have h2 := order_moves_perm s moves
    rwa [hflt] at h2

/-- C10 counterexample: the singleton list holding the move (0,1) -> (0,100)
satisfies the claim's hypothesis — its origin a2 holds a piece — yet
`_order_moves` raises `IndexError` on `pawn_table[100]` (the checked model
returns `none`) instead of returning a permutation of the list. -/
theorem order_moves_raises_offboard_destination :
    (get_piece_at ChessState.init 0 1).isSome = true ∧
    order_moves_checked [((0, 1), (0, 100))] ChessState.init = none :=
  ⟨by decide, by decide⟩

/-- C10 witness: the singleton list holding the on-board pawn push a2a3 on
the initial position is ordered without error, into a permutation of
itself. -/
theorem order_moves_checked_is_permutation_witness :
    order_moves_checked [((0, 1), (0, 2))] ChessState.init
      = some (order_moves [((0, 1), (0, 2))] ChessState.init) ∧
    (order_moves [((0, 1), (0, 2))] ChessState.init).Perm
      [((0, 1), (0, 2))] :=
  ⟨(order_moves_checked_is_permutation ChessState.init
      [((0, 1), (0, 2))] (by decide)).1,
    (order_moves_checked_is_permutation ChessState.init
      [((0, 1), (0, 2))] (by decide)).2.2 (by decide)⟩

/-- C5 (code bug): `get_best_move` can raise instead of returning a legal
move.  On `h1_castle_state` the generated list is non-empty and holds more
than one move, so neither the `None` branch nor the single-move shortcut
applies and the search must order the moves; but the list contains the
off-board castle (7,0) -> (9,0) — castling rights are never cleared by
`make_move` and the castling test probes only emptiness and attacks, never
the rook or the board edge — and ordering that list raises `IndexError` on
`king_table[0][9]`, so the real `get_best_move` crashes where the claim
(and the spec's anytime-result promise) requires some legal move. -/
theorem get_best_move_move_ordering_raises :
    (((7, 0), (9, 0)) : Move) ∈ generate_moves h1_castle_state ∧
    on_board 9 0 = false ∧
    (generate_moves h1_castle_state).isEmpty = false ∧
    (generate_moves h1_castle_state).length ≠ 1 ∧
    order_moves_checked (generate_moves h1_castle_state) h1_castle_state
      = none :=
  ⟨by decide, by decide, by decide, by decide, by decide⟩

end ChessAI
